import Mathlib

/-!
Shallow embedding of the core of `miden-client-tools` (`src/lib.rs`):
the Falcon-signature advice-stack generator.

* `Felt` models `miden_client::Felt`, the Miden base field element type.
  Its Rust invariant is that `as_int()` always returns the canonical
  representative in `[0, p)` with `p = 2^64 - 2^32 + 1`; we model a `Felt`
  as `Fin p`, with `Fin.val` playing the role of `as_int()`.
* `mulModuloP` embeds `mul_modulo_p` (lib.rs lines 106-115): a double loop
  over `i, j < N = 512` accumulating `a[i].as_int() * b[j].as_int()` into a
  `[u64; 1024]` array; both the multiplication and the `+=` are u64
  operations, so they wrap modulo `2^64`, written explicitly as `% 2^64`.
* `generateAdviceStackFromSignature` embeds
  `generate_advice_stack_from_signature` (lib.rs lines 140-158).  The hash
  `Hasher::hash_elements` is a third-party dependency (RPO over the Miden
  field); the embedding is parameterised by an arbitrary
  `hash : List Felt → List Felt` returning the digest elements, of which
  the code reads entries 0 and 1.
* `mintFromFaucetForAccount` embeds the control flow and client-effect
  trace of `mint_from_faucet_for_account` (lib.rs lines 355-399); the
  behaviour of the external Miden client calls is supplied by a `MintEnv`.
-/

namespace MidenClientTools

/-- The Miden base field modulus `p = 2^64 - 2^32 + 1`. -/
def p : Nat := 18446744069414584321

instance : NeZero p := ⟨by decide⟩

/-- A field element: the Rust `Felt` with its canonicity invariant,
`Fin.val` modelling `as_int()`. -/
abbrev Felt := Fin p

/-- `Felt::new(v)`: reduce a `u64` value to its canonical representative. -/
def feltNew (v : Nat) : Felt := ⟨v % p, Nat.mod_lt _ (by decide)⟩

/-- `const N: usize = 512` (lib.rs line 106). -/
def N : Nat := 512

/-- The inner `for j in 0..N` loop of `mul_modulo_p` for a fixed `i`:
`c[i + j] += a.coefficients[i].as_int() * b.coefficients[j].as_int()`,
with u64 wrapping on both the product and the sum. -/
def mulInner (a b : List Felt) (i : Nat) (c : List Nat) : List Nat :=
  (List.range N).foldl
    (fun c j =>
      c.set (i + j)
        ((c.getD (i + j) 0 + (a.getD i 0).val * (b.getD j 0).val % 2 ^ 64) % 2 ^ 64))
    c

/-- `mul_modulo_p` (lib.rs lines 107-115): `let mut c = [0; 2 * N];` then the
double loop `for i in 0..N { for j in 0..N { c[i + j] += ... } }`. -/
def mulModuloP (a b : List Felt) : List Nat :=
  (List.range N).foldl (fun c i => mulInner a b i c) (List.replicate (2 * N) 0)

/-- Modelled from the spec: the exact, unbounded-integer convolution
`result[i] = Σ over j in [0,N), k in [0,N), j+k=i of value(a[j]) × value(b[k])`
(spec §4.1), used to compare `mulModuloP` against the spec's contract. -/
def exactConv (a b : List Felt) (k : Nat) : Nat :=
  ∑ i ∈ Finset.range N, ∑ j ∈ Finset.range N,
    if i + j = k then (a.getD i 0).val * (b.getD j 0).val else 0

/-- `to_elements` (lib.rs lines 126-128): the coefficient vector itself. -/
def toElements (poly : List Felt) : List Felt := poly

/-- `generate_advice_stack_from_signature` (lib.rs lines 140-158),
parameterised by the digest function modelling `Hasher::hash_elements`. -/
def generateAdviceStackFromSignature (hash : List Felt → List Felt)
    (h s2 : List Felt) : List Nat :=
  let pi := mulModuloP h s2
  -- lay the polynomials in order h then s2 then pi = h * s2
  let polynomials := toElements h ++ toElements s2 ++ pi.map feltNew
  -- get the challenge point and push it to the advice stack
  let digestPolynomials := hash polynomials
  let challenge := (digestPolynomials.getD 0 0, digestPolynomials.getD 1 0)
  let adviceStack := [challenge.1.val, challenge.2.val]
  -- push the polynomials to the advice stack
  adviceStack ++ polynomials.map Fin.val

/-- The externally observable Miden-client calls made by
`mint_from_faucet_for_account`. -/
inductive MintEffect
  | newMintTransaction
  | submitMintTransaction
  | newConsumeTransaction
  | submitConsumeTransaction
  | syncState
  deriving DecidableEq, Repr

/-- Outcome of `mint_from_faucet_for_account`: `Ok(())`, `Err(e)`, or a
panic from one of its `unwrap()` / `panic!` sites. -/
inductive MintOutcome (ε : Type)
  | ok
  | err (e : ε)
  | panicked
  deriving DecidableEq, Repr

/-- Results of the external Miden client / SDK calls that
`mint_from_faucet_for_account` performs, supplied abstractly. -/
structure MintEnv (ε : Type) where
  /-- `FungibleAsset::new(..).unwrap()` and `build_mint_fungible_asset(..).unwrap()` succeed. -/
  mintReqOk : Bool
  /-- result of `client.new_transaction(faucet.id(), mint_req)`. -/
  newMintTx : Except ε Unit
  /-- result of `client.submit_transaction(mint_exec.clone())`. -/
  submitMintTx : Except ε Unit
  /-- whether `mint_exec.created_notes().get_note(0)` is `OutputNote::Full`. -/
  mintedNoteIsFull : Bool
  /-- result of building the consume request (`.build()?`). -/
  buildConsumeReq : Except ε Unit
  /-- result of `client.new_transaction(account.id(), consume_req)` (then `.unwrap()`). -/
  newConsumeTx : Except ε Unit
  /-- result of `client.submit_transaction(consume_exec.clone())`. -/
  submitConsumeTx : Except ε Unit
  /-- result of `client.sync_state()`. -/
  syncState : Except ε Unit

/-- `mint_from_faucet_for_account` (lib.rs lines 355-399): outcome together
with the ordered trace of client calls it performed.  `txScript` models the
optional custom transaction script (both branches build a consume request;
only its contents differ). -/
def mintFromFaucetForAccount {ε : Type} (env : MintEnv ε) (amount : Nat)
    (txScript : Option Unit) : MintOutcome ε × List MintEffect :=
  if amount = 0 then (.ok, [])
  else if ¬env.mintReqOk then (.panicked, [])
  else match env.newMintTx with
  | .error e => (.err e, [.newMintTransaction])
  | .ok _ =>
    match env.submitMintTx with
    | .error e => (.err e, [.newMintTransaction, .submitMintTransaction])
    | .ok _ =>
      if ¬env.mintedNoteIsFull then
        (.panicked, [.newMintTransaction, .submitMintTransaction])
      else
        -- both the `Some(script)` and `None` branches call `.build()?`
        match txScript, env.buildConsumeReq with
        | _, .error e => (.err e, [.newMintTransaction, .submitMintTransaction])
        | _, .ok _ =>
          match env.newConsumeTx with
          | .error _ =>
            -- `.unwrap()` on the consume transaction panics on error
            (.panicked,
             [.newMintTransaction, .submitMintTransaction, .newConsumeTransaction])
          | .ok _ =>
            match env.submitConsumeTx with
            | .error e =>
              (.err e,
               [.newMintTransaction, .submitMintTransaction, .newConsumeTransaction,
                .submitConsumeTransaction])
            | .ok _ =>
              match env.syncState with
              | .error e =>
                (.err e,
                 [.newMintTransaction, .submitMintTransaction, .newConsumeTransaction,
                  .submitConsumeTransaction, .syncState])
              | .ok _ =>
                (.ok,
                 [.newMintTransaction, .submitMintTransaction, .newConsumeTransaction,
                  .submitConsumeTransaction, .syncState])

/-- The all-zero polynomial (512 zero coefficients). -/
def zeroPoly : List Felt := List.replicate 512 0

/-- The multiplicative-identity polynomial `[1, 0, 0, ...]` (one followed by
511 zeros). -/
def unitPoly : List Felt := 1 :: List.replicate 511 0

/-- A polynomial of canonical field elements whose leading coefficient is
`2^32`, large enough to overflow the u64 accumulator of `mul_modulo_p`. -/
def bigPoly : List Felt := feltNew (2 ^ 32) :: List.replicate 511 0

/-- A concrete stand-in digest function used to instantiate the
hash parameter on concrete inputs. -/
def trivialDigest : List Felt → List Felt := fun _ => []

/-! ## Closed-form characterisation of `mulModuloP` -/

theorem getD_replicate_zero (n k : Nat) : (List.replicate n (0 : Nat)).getD k 0 = 0 := by
  rcases Nat.lt_or_ge k n with h | h
  · rw [List.getD_eq_getElem _ _ (by simpa using h), List.getElem_replicate]
  · exact List.getD_eq_default _ _ (by simpa using h)

theorem mulInner_foldl_length (a b : List Felt) (i : Nat) :
    ∀ (l : List Nat) (c : List Nat),
      (l.foldl
        (fun c j =>
          c.set (i + j)
            ((c.getD (i + j) 0 + (a.getD i 0).val * (b.getD j 0).val % 2 ^ 64) % 2 ^ 64))
        c).length = c.length := by
  intro l
  induction l with
  | nil => intro c; rfl
  | cons x xs ih => intro c; rw [List.foldl_cons, ih, List.length_set]

theorem mulInner_length (a b : List Felt) (i : Nat) (c : List Nat) :
    (mulInner a b i c).length = c.length :=
  mulInner_foldl_length a b i (List.range N) c

theorem getD_set_lt (c : List Nat) (m k v : Nat) (hk : k < c.length) :
    (c.set m v).getD k 0 = if m = k then v else c.getD k 0 := by
  rw [List.getD_eq_getElem _ _ (by simpa using hk), List.getElem_set,
    List.getD_eq_getElem _ _ hk]

theorem mulInner_aux (a b : List Felt) (i : Nat) :
    ∀ (m : Nat) (c : List Nat) (k : Nat), k < c.length →
      ((List.range m).foldl
        (fun c j =>
          c.set (i + j)
            ((c.getD (i + j) 0 + (a.getD i 0).val * (b.getD j 0).val % 2 ^ 64) % 2 ^ 64))
        c).getD k 0 =
      if i ≤ k ∧ k - i < m then
        (c.getD k 0 + (a.getD i 0).val * (b.getD (k - i) 0).val) % 2 ^ 64
      else c.getD k 0 := by
  intro m
  induction m with
  | zero => intro c k _; simp
  | succ m ih =>
    intro c k hk
    rw [List.range_succ, List.foldl_append, List.foldl_cons, List.foldl_nil]
    have hlen : ((List.range m).foldl
        (fun c j =>
          c.set (i + j)
            ((c.getD (i + j) 0 + (a.getD i 0).val * (b.getD j 0).val % 2 ^ 64) % 2 ^ 64))
        c).length = c.length := mulInner_foldl_length a b i (List.range m) c
    rw [getD_set_lt _ _ _ _ (by rw [hlen]; exact hk)]
    by_cases hkm : i + m = k
    · subst hkm
      have hA : ¬(i ≤ i + m ∧ i + m - i < m) := by omega
      have hB : i ≤ i + m ∧ i + m - i < m + 1 := by omega
      rw [if_pos rfl, ih c (i + m) hk, if_neg hA, if_pos hB,
        show i + m - i = m by omega, Nat.add_mod_mod]
    · rw [if_neg hkm, ih c k hk]
      by_cases h2 : i ≤ k ∧ k - i < m
      · rw [if_pos h2, if_pos (by omega : i ≤ k ∧ k - i < m + 1)]
      · rw [if_neg h2, if_neg (by omega : ¬(i ≤ k ∧ k - i < m + 1))]

theorem mulInner_getD (a b : List Felt) (i : Nat) (c : List Nat) (k : Nat)
    (hk : k < c.length) :
    (mulInner a b i c).getD k 0 =
      if i ≤ k ∧ k - i < N then
        (c.getD k 0 + (a.getD i 0).val * (b.getD (k - i) 0).val) % 2 ^ 64
      else c.getD k 0 :=
  mulInner_aux a b i N c k hk

theorem mulModuloP_foldl_length (a b : List Felt) :
    ∀ (l : List Nat) (c : List Nat),
      (l.foldl (fun c i => mulInner a b i c) c).length = c.length := by
  intro l
  induction l with
  | nil => intro c; rfl
  | cons x xs ih => intro c; rw [List.foldl_cons, ih, mulInner_length]

theorem mulModuloP_length (a b : List Felt) : (mulModuloP a b).length = 1024 := by
  unfold mulModuloP
  rw [mulModuloP_foldl_length, List.length_replicate]
  norm_num [N]

theorem mulModuloP_aux (a b : List Felt) :
    ∀ (m k : Nat), k < 1024 →
      ((List.range m).foldl (fun c i => mulInner a b i c)
        (List.replicate (2 * N) 0)).getD k 0 =
      (∑ i ∈ Finset.range m,
        if i ≤ k ∧ k - i < N then (a.getD i 0).val * (b.getD (k - i) 0).val else 0) %
        2 ^ 64 := by
  intro m
  induction m with
  | zero => intro k _; simp [getD_replicate_zero]
  | succ m ih =>
    intro k hk
    rw [List.range_succ, List.foldl_append, List.foldl_cons, List.foldl_nil]
    have hlen : ((List.range m).foldl (fun c i => mulInner a b i c)
        (List.replicate (2 * N) 0)).length = 1024 := by
      rw [mulModuloP_foldl_length, List.length_replicate]
      norm_num [N]
    rw [mulInner_getD _ _ _ _ _ (by rw [hlen]; exact hk), ih k hk,
      Finset.sum_range_succ]
    by_cases hc : m ≤ k ∧ k - m < N
    · rw [if_pos hc, if_pos hc, Nat.mod_add_mod]
    · rw [if_neg hc, if_neg hc, Nat.add_zero]

theorem exactConv_eq_sum (a b : List Felt) (k : Nat) :
    exactConv a b k =
      ∑ i ∈ Finset.range N,
        if i ≤ k ∧ k - i < N then (a.getD i 0).val * (b.getD (k - i) 0).val else 0 := by
  unfold exactConv
  refine Finset.sum_congr rfl fun i _ => ?_
  by_cases hc : i ≤ k ∧ k - i < N
  · obtain ⟨hc1, hc2⟩ := hc
    rw [if_pos ⟨hc1, hc2⟩]
    rw [Finset.sum_eq_single (k - i)]
    · rw [if_pos (by omega)]
    · intro j _ hjne
      rw [if_neg (by omega)]
    · intro hni
      exact absurd (Finset.mem_range.mpr hc2) hni
  · rw [if_neg hc]
    apply Finset.sum_eq_zero
    intro j hj
    rw [Finset.mem_range] at hj
    rw [if_neg (by omega)]

/-- Every entry of `mulModuloP` is the exact spec convolution sum reduced
modulo `2^64` (the u64 wrapping of the Rust accumulator). -/
theorem mulModuloP_getD (a b : List Felt) (k : Nat) (hk : k < 1024) :
    (mulModuloP a b).getD k 0 = exactConv a b k % 2 ^ 64 := by
  unfold mulModuloP
  rw [mulModuloP_aux a b N k hk, exactConv_eq_sum]

/-! ## Generic helpers -/

theorem getD_map_val (l : List Felt) (i : Nat) (hi : i < l.length) :
    (l.map Fin.val).getD i 0 = (l.getD i 0).val := by
  rw [List.getD_eq_getElem _ _ (by simpa using hi), List.getElem_map,
    List.getD_eq_getElem _ _ hi]

theorem getD_map_feltNew (l : List Nat) (i : Nat) (hi : i < l.length) :
    (l.map feltNew).getD i 0 = feltNew (l.getD i 0) := by
  rw [List.getD_eq_getElem _ _ (by simpa using hi), List.getElem_map,
    List.getD_eq_getElem _ _ hi]

theorem getD_mem (l : List Felt) (i : Nat) (hi : i < l.length) : l.getD i 0 ∈ l := by
  rw [List.getD_eq_getElem _ _ hi]
  exact List.getElem_mem hi

theorem feltNew_zero : feltNew 0 = (0 : Felt) := by
  apply Fin.ext
  simp [feltNew]

theorem zeroPoly_getD (i : Nat) : zeroPoly.getD i 0 = 0 := by
  unfold zeroPoly
  rcases Nat.lt_or_ge i 512 with h | h
  · rw [List.getD_eq_getElem _ _ (by rw [List.length_replicate]; exact h),
      List.getElem_replicate]
  · exact List.getD_eq_default _ _ (by rw [List.length_replicate]; exact h)

theorem unitPoly_getD (i : Nat) :
    unitPoly.getD i 0 = if i = 0 then 1 else 0 := by
  unfold unitPoly
  cases i with
  | zero => rw [List.getD_cons_zero, if_pos rfl]
  | succ n =>
    rw [List.getD_cons_succ, if_neg (Nat.succ_ne_zero n)]
    rcases Nat.lt_or_ge n 511 with h | h
    · rw [List.getD_eq_getElem _ _ (by rw [List.length_replicate]; exact h),
        List.getElem_replicate]
    · exact List.getD_eq_default _ _ (by rw [List.length_replicate]; exact h)

/-! ## Properties of the exact convolution -/

theorem exactConv_comm (a b : List Felt) (k : Nat) :
    exactConv a b k = exactConv b a k := by
  unfold exactConv
  rw [Finset.sum_comm]
  refine Finset.sum_congr rfl fun j _ => Finset.sum_congr rfl fun i _ => ?_
  rw [Nat.mul_comm]
  by_cases hc : i + j = k
  · rw [if_pos hc, if_pos (by omega)]
  · rw [if_neg hc, if_neg (by omega)]

theorem exactConv_at_zero (a b : List Felt) :
    exactConv a b 0 = (a.getD 0 0).val * (b.getD 0 0).val := by
  rw [exactConv_eq_sum]
  rw [Finset.sum_eq_single 0]
  · rw [if_pos (by norm_num [N])]
  · intro i _ hi
    rw [if_neg (by omega)]
  · intro hn
    exact absurd (Finset.mem_range.mpr (by norm_num [N])) hn

theorem exactConv_zero_left (b : List Felt) (k : Nat) :
    exactConv zeroPoly b k = 0 := by
  rw [exactConv_eq_sum]
  refine Finset.sum_eq_zero fun i _ => ?_
  rw [zeroPoly_getD]
  by_cases hc : i ≤ k ∧ k - i < N
  · rw [if_pos hc]
    simp
  · rw [if_neg hc]

theorem exactConv_unit_left (b : List Felt) (k : Nat) :
    exactConv unitPoly b k = if k < 512 then (b.getD k 0).val else 0 := by
  rw [exactConv_eq_sum]
  rw [Finset.sum_eq_single 0]
  · rw [unitPoly_getD, if_pos rfl]
    have hN : N = 512 := rfl
    by_cases hk : k < 512
    · rw [if_pos (by omega), if_pos hk, Nat.sub_zero]
      exact Nat.one_mul _
    · rw [if_neg (by omega), if_neg hk]
  · intro i _ hi
    rw [unitPoly_getD, if_neg hi]
    by_cases hc : i ≤ k ∧ k - i < N
    · rw [if_pos hc]
      simp
    · rw [if_neg hc]
  · intro hn
    exact absurd (Finset.mem_range.mpr (by norm_num [N])) hn

/-- Under the coefficient bound `2^27`, the exact convolution sum fits in a
u64: it is at most `512 * (2^27 - 1)^2 < 2^64`. -/
theorem exactConv_lt_two_pow_64 (a b : List Felt)
    (hla : a.length = 512) (hlb : b.length = 512)
    (ha : ∀ x ∈ a, x.val < 2 ^ 27) (hb : ∀ x ∈ b, x.val < 2 ^ 27)
    (k : Nat) : exactConv a b k < 2 ^ 64 := by
  have hterm : ∀ i ∈ Finset.range N,
      (if i ≤ k ∧ k - i < N then (a.getD i 0).val * (b.getD (k - i) 0).val else 0) ≤
        (2 ^ 27 - 1) * (2 ^ 27 - 1) := by
    intro i hi
    rw [Finset.mem_range] at hi
    by_cases hc : i ≤ k ∧ k - i < N
    · rw [if_pos hc]
      have hN : N = 512 := rfl
      have hai : a.getD i 0 ∈ a := getD_mem a i (by omega)
      have hbi : b.getD (k - i) 0 ∈ b := getD_mem b (k - i) (by omega)
      exact Nat.mul_le_mul (by have := ha _ hai; omega) (by have := hb _ hbi; omega)
    · rw [if_neg hc]
      exact Nat.zero_le _
  have hsum := Finset.sum_le_card_nsmul (Finset.range N) _ _ hterm
  rw [exactConv_eq_sum]
  calc (∑ i ∈ Finset.range N,
      if i ≤ k ∧ k - i < N then (a.getD i 0).val * (b.getD (k - i) 0).val else 0)
      ≤ (Finset.range N).card • ((2 ^ 27 - 1) * (2 ^ 27 - 1)) := hsum
    _ = N * ((2 ^ 27 - 1) * (2 ^ 27 - 1)) := by rw [Finset.card_range, smul_eq_mul]
    _ < 2 ^ 64 := by norm_num [N]

/-! ## Structure of the advice tape -/

theorem tape_eq (hash : List Felt → List Felt) (h s2 : List Felt) :
    generateAdviceStackFromSignature hash h s2 =
      ((hash (h ++ s2 ++ (mulModuloP h s2).map feltNew)).getD 0 0).val ::
        ((hash (h ++ s2 ++ (mulModuloP h s2).map feltNew)).getD 1 0).val ::
        (h ++ s2 ++ (mulModuloP h s2).map feltNew).map Fin.val := rfl

theorem tape_length (hash : List Felt → List Felt) (h s2 : List Felt)
    (hh : h.length = 512) (hs : s2.length = 512) :
    (generateAdviceStackFromSignature hash h s2).length = 2050 := by
  rw [tape_eq]
  simp only [List.length_cons, List.length_map, List.length_append,
    mulModuloP_length, hh, hs]

theorem tape_getD_zero (hash : List Felt → List Felt) (h s2 : List Felt) :
    (generateAdviceStackFromSignature hash h s2).getD 0 0 =
      ((hash (h ++ s2 ++ (mulModuloP h s2).map feltNew)).getD 0 0).val := by
  rw [tape_eq, List.getD_cons_zero]

theorem tape_getD_one (hash : List Felt → List Felt) (h s2 : List Felt) :
    (generateAdviceStackFromSignature hash h s2).getD 1 0 =
      ((hash (h ++ s2 ++ (mulModuloP h s2).map feltNew)).getD 1 0).val := by
  rw [tape_eq]
  rw [show (1 : Nat) = 0 + 1 from rfl, List.getD_cons_succ, List.getD_cons_zero]

theorem tape_getD_h (hash : List Felt → List Felt) (h s2 : List Felt)
    (hh : h.length = 512) (i : Nat) (hi : i < 512) :
    (generateAdviceStackFromSignature hash h s2).getD (2 + i) 0 =
      (h.getD i 0).val := by
  rw [tape_eq, show 2 + i = i + 1 + 1 from by omega, List.getD_cons_succ,
    List.getD_cons_succ, List.map_append, List.map_append]
  rw [List.getD_append _ _ _ _
    (by rw [List.length_append, List.length_map, List.length_map, hh]; omega)]
  rw [List.getD_append _ _ _ _ (by rw [List.length_map, hh]; omega)]
  exact getD_map_val h i (by omega)

theorem tape_getD_s2 (hash : List Felt → List Felt) (h s2 : List Felt)
    (hh : h.length = 512) (hs : s2.length = 512) (i : Nat) (hi : i < 512) :
    (generateAdviceStackFromSignature hash h s2).getD (514 + i) 0 =
      (s2.getD i 0).val := by
  rw [tape_eq, show 514 + i = (512 + i) + 1 + 1 from by omega, List.getD_cons_succ,
    List.getD_cons_succ, List.map_append, List.map_append]
  rw [List.getD_append _ _ _ _
    (by rw [List.length_append, List.length_map, List.length_map, hh, hs]; omega)]
  rw [List.getD_append_right _ _ _ _ (by rw [List.length_map, hh]; omega)]
  rw [List.length_map, hh, show 512 + i - 512 = i from by omega]
  exact getD_map_val s2 i (by omega)

theorem tape_getD_pi (hash : List Felt → List Felt) (h s2 : List Felt)
    (hh : h.length = 512) (hs : s2.length = 512) (i : Nat) (hi : i < 1024) :
    (generateAdviceStackFromSignature hash h s2).getD (1026 + i) 0 =
      (feltNew ((mulModuloP h s2).getD i 0)).val := by
  rw [tape_eq, show 1026 + i = (1024 + i) + 1 + 1 from by omega, List.getD_cons_succ,
    List.getD_cons_succ, List.map_append]
  rw [List.getD_append_right _ _ _ _
    (by rw [List.length_map, List.length_append, hh, hs]; omega)]
  rw [List.length_map, List.length_append, hh, hs,
    show 1024 + i - (512 + 512) = i from by omega]
  rw [getD_map_val _ i (by rw [List.length_map, mulModuloP_length]; omega)]
  rw [getD_map_feltNew _ i (by rw [mulModuloP_length]; omega)]

/-! ## Claim theorems -/

/-- Claim C1, counterexample: for the canonical-field-element polynomial
`bigPoly = [2^32, 0, ...]`, entry 0 of `mul_modulo_p(bigPoly, bigPoly)` is
`(2^32 * 2^32) mod 2^64 = 0`, not the exact unbounded-integer sum `2^64`:
the u64 accumulator silently wraps. -/
theorem C1_counterexample :
    bigPoly.length = 512 ∧ (∀ x ∈ bigPoly, x.val < p) ∧
      (mulModuloP bigPoly bigPoly).getD 0 0 ≠ exactConv bigPoly bigPoly 0 := by
  refine ⟨by rw [bigPoly, List.length_cons, List.length_replicate],
    fun x _ => x.isLt, ?_⟩
  rw [mulModuloP_getD _ _ 0 (by omega), exactConv_at_zero,
    show bigPoly.getD 0 0 = feltNew (2 ^ 32) from rfl,
    show (feltNew (2 ^ 32)).val = 2 ^ 32 from by decide]
  norm_num

/-- Claim C1, amended: every entry of `mul_modulo_p` equals the exact
unbounded convolution sum reduced modulo `2^64`; when additionally all
coefficients are below `2^27` (as for Falcon signature polynomials), the
u64 accumulator never wraps and every entry equals the exact sum itself. -/
theorem C1_entries_exact (a b : List Felt)
    (hla : a.length = 512) (hlb : b.length = 512)
    (k : Nat) (hk : k < 1024) :
    (mulModuloP a b).getD k 0 = exactConv a b k % 2 ^ 64 ∧
      ((∀ x ∈ a, x.val < 2 ^ 27) → (∀ x ∈ b, x.val < 2 ^ 27) →
        (mulModuloP a b).getD k 0 = exactConv a b k) := by
  refine ⟨mulModuloP_getD a b k hk, fun ha hb => ?_⟩
  rw [mulModuloP_getD a b k hk]
  exact Nat.mod_eq_of_lt (exactConv_lt_two_pow_64 a b hla hlb ha hb k)

/-- Claim C1, witness for the amended theorem at the all-zero polynomial. -/
theorem C1_witness :
    ((mulModuloP zeroPoly zeroPoly).getD 0 0 = exactConv zeroPoly zeroPoly 0 % 2 ^ 64 ∧
      ((∀ x ∈ zeroPoly, x.val < 2 ^ 27) → (∀ x ∈ zeroPoly, x.val < 2 ^ 27) →
        (mulModuloP zeroPoly zeroPoly).getD 0 0 = exactConv zeroPoly zeroPoly 0)) :=
  C1_entries_exact zeroPoly zeroPoly
    (by rw [zeroPoly, List.length_replicate])
    (by rw [zeroPoly, List.length_replicate])
    0 (by omega)

/-- Claim C2: the advice tape starts with the two challenge values — the
first two digest elements of the hash applied to the 4N-element sequence
`h ++ s2 ++ (convolution entries as field elements)` — followed by, in
order, the canonical representatives of h, s2, and the canonicalised
convolution entries. -/
theorem C2_tape_contents (hash : List Felt → List Felt) (h s2 : List Felt)
    (hh : h.length = 512) (hs : s2.length = 512) :
    (generateAdviceStackFromSignature hash h s2).getD 0 0 =
      ((hash (h ++ s2 ++ (mulModuloP h s2).map feltNew)).getD 0 0).val ∧
    (generateAdviceStackFromSignature hash h s2).getD 1 0 =
      ((hash (h ++ s2 ++ (mulModuloP h s2).map feltNew)).getD 1 0).val ∧
    (∀ i < 512,
      (generateAdviceStackFromSignature hash h s2).getD (2 + i) 0 =
        (h.getD i 0).val) ∧
    (∀ i < 512,
      (generateAdviceStackFromSignature hash h s2).getD (514 + i) 0 =
        (s2.getD i 0).val) ∧
    (∀ i < 1024,
      (generateAdviceStackFromSignature hash h s2).getD (1026 + i) 0 =
        (feltNew ((mulModuloP h s2).getD i 0)).val) :=
  ⟨tape_getD_zero hash h s2, tape_getD_one hash h s2,
    fun i hi => tape_getD_h hash h s2 hh i hi,
    fun i hi => tape_getD_s2 hash h s2 hh hs i hi,
    fun i hi => tape_getD_pi hash h s2 hh hs i hi⟩

/-- Claim C2, witness at the all-zero polynomials with a concrete digest. -/
theorem C2_witness :
    (generateAdviceStackFromSignature trivialDigest zeroPoly zeroPoly).getD 0 0 =
      ((trivialDigest (zeroPoly ++ zeroPoly ++
        (mulModuloP zeroPoly zeroPoly).map feltNew)).getD 0 0).val ∧
    (generateAdviceStackFromSignature trivialDigest zeroPoly zeroPoly).getD 1 0 =
      ((trivialDigest (zeroPoly ++ zeroPoly ++
        (mulModuloP zeroPoly zeroPoly).map feltNew)).getD 1 0).val ∧
    (∀ i < 512,
      (generateAdviceStackFromSignature trivialDigest zeroPoly zeroPoly).getD (2 + i) 0 =
        (zeroPoly.getD i 0).val) ∧
    (∀ i < 512,
      (generateAdviceStackFromSignature trivialDigest zeroPoly zeroPoly).getD (514 + i) 0 =
        (zeroPoly.getD i 0).val) ∧
    (∀ i < 1024,
      (generateAdviceStackFromSignature trivialDigest zeroPoly zeroPoly).getD (1026 + i) 0 =
        (feltNew ((mulModuloP zeroPoly zeroPoly).getD i 0)).val) :=
  C2_tape_contents trivialDigest zeroPoly zeroPoly
    (by rw [zeroPoly, List.length_replicate])
    (by rw [zeroPoly, List.length_replicate])

/-- Claim C3: for length-512 inputs the advice tape has exactly
`2 + 4N = 2050` entries. -/
theorem C3_tape_length (hash : List Felt → List Felt) (h s2 : List Felt)
    (hh : h.length = 512) (hs : s2.length = 512) :
    (generateAdviceStackFromSignature hash h s2).length = 2050 :=
  tape_length hash h s2 hh hs

/-- Claim C3, witness at the all-zero polynomials. -/
theorem C3_witness :
    (generateAdviceStackFromSignature trivialDigest zeroPoly zeroPoly).length = 2050 :=
  C3_tape_length trivialDigest zeroPoly zeroPoly
    (by rw [zeroPoly, List.length_replicate])
    (by rw [zeroPoly, List.length_replicate])

/-- Claim C4, counterexample: at concrete length-512 inputs the tape has
2050 entries, not 3586 as claimed. -/
theorem C4_counterexample :
    (generateAdviceStackFromSignature trivialDigest unitPoly unitPoly).length ≠ 3586 := by
  rw [tape_length trivialDigest unitPoly unitPoly
    (by rw [unitPoly, List.length_cons, List.length_replicate])
    (by rw [unitPoly, List.length_cons, List.length_replicate])]
  decide

/-- Claim C4, amended: the advice tape has exactly `2 + 4 * 512 = 2050`
entries (the convolution segment contributes `2N` entries to the same
`4N`-element payload, so the `2 + 3N + 2N` count double-books it). -/
theorem C4_tape_length_amended (hash : List Felt → List Felt) (h s2 : List Felt)
    (hh : h.length = 512) (hs : s2.length = 512) :
    (generateAdviceStackFromSignature hash h s2).length = 2 + 4 * 512 := by
  rw [tape_length hash h s2 hh hs]

/-- Claim C4, witness for the amended theorem. -/
theorem C4_witness :
    (generateAdviceStackFromSignature trivialDigest unitPoly zeroPoly).length =
      2 + 4 * 512 :=
  C4_tape_length_amended trivialDigest unitPoly zeroPoly
    (by rw [unitPoly, List.length_cons, List.length_replicate])
    (by rw [zeroPoly, List.length_replicate])

/-- Claim C5: the convolution is commutative — `mul_modulo_p(a, b)` equals
`mul_modulo_p(b, a)` entry for entry. -/
theorem C5_conv_commutative (a b : List Felt)
    (hla : a.length = 512) (hlb : b.length = 512) :
    mulModuloP a b = mulModuloP b a := by
  apply List.ext_getElem (by rw [mulModuloP_length, mulModuloP_length])
  intro n h1 h2
  have hn : n < 1024 := by rw [mulModuloP_length] at h1; exact h1
  rw [← List.getD_eq_getElem (mulModuloP a b) 0 h1,
    ← List.getD_eq_getElem (mulModuloP b a) 0 h2,
    mulModuloP_getD a b n hn, mulModuloP_getD b a n hn, exactConv_comm]

/-- Claim C5, witness at concrete polynomials. -/
theorem C5_witness : mulModuloP zeroPoly unitPoly = mulModuloP unitPoly zeroPoly :=
  C5_conv_commutative zeroPoly unitPoly
    (by rw [zeroPoly, List.length_replicate])
    (by rw [unitPoly, List.length_cons, List.length_replicate])

/-- Claim C6: convolving the all-zero polynomial with any length-512
polynomial gives the all-zero 1024-entry result; consequently the
convolution segment of the tape is all zeros and the challenge entries are
the first two digest elements of the hash of `zeros ++ b ++ 1024 zeros`. -/
theorem C6_zero_poly (hash : List Felt → List Felt) (b : List Felt)
    (hb : b.length = 512) :
    mulModuloP zeroPoly b = List.replicate 1024 0 ∧
    (∀ i < 1024,
      (generateAdviceStackFromSignature hash zeroPoly b).getD (1026 + i) 0 = 0) ∧
    (generateAdviceStackFromSignature hash zeroPoly b).getD 0 0 =
      ((hash (zeroPoly ++ b ++ List.replicate 1024 (0 : Felt))).getD 0 0).val ∧
    (generateAdviceStackFromSignature hash zeroPoly b).getD 1 0 =
      ((hash (zeroPoly ++ b ++ List.replicate 1024 (0 : Felt))).getD 1 0).val := by
  have hconv : mulModuloP zeroPoly b = List.replicate 1024 0 := by
    apply List.ext_getElem (by rw [mulModuloP_length, List.length_replicate])
    intro n h1 h2
    have hn : n < 1024 := by rw [mulModuloP_length] at h1; exact h1
    rw [← List.getD_eq_getElem (mulModuloP zeroPoly b) 0 h1,
      ← List.getD_eq_getElem (List.replicate 1024 0) 0 h2,
      mulModuloP_getD _ _ n hn, exactConv_zero_left, getD_replicate_zero,
      Nat.zero_mod]
  have hmap : (mulModuloP zeroPoly b).map feltNew = List.replicate 1024 (0 : Felt) := by
    rw [hconv, List.map_replicate, feltNew_zero]
  have hz : zeroPoly.length = 512 := by rw [zeroPoly, List.length_replicate]
  refine ⟨hconv, ?_, ?_, ?_⟩
  · intro i hi
    rw [tape_getD_pi hash zeroPoly b hz hb i hi, hconv, getD_replicate_zero,
      feltNew_zero]
    decide
  · rw [tape_getD_zero hash zeroPoly b, hmap]
  · rw [tape_getD_one hash zeroPoly b, hmap]

/-- Claim C6, witness at a concrete second polynomial. -/
theorem C6_witness :
    mulModuloP zeroPoly unitPoly = List.replicate 1024 0 ∧
    (∀ i < 1024,
      (generateAdviceStackFromSignature trivialDigest zeroPoly unitPoly).getD
        (1026 + i) 0 = 0) ∧
    (generateAdviceStackFromSignature trivialDigest zeroPoly unitPoly).getD 0 0 =
      ((trivialDigest (zeroPoly ++ unitPoly ++
        List.replicate 1024 (0 : Felt))).getD 0 0).val ∧
    (generateAdviceStackFromSignature trivialDigest zeroPoly unitPoly).getD 1 0 =
      ((trivialDigest (zeroPoly ++ unitPoly ++
        List.replicate 1024 (0 : Felt))).getD 1 0).val :=
  C6_zero_poly trivialDigest unitPoly
    (by rw [unitPoly, List.length_cons, List.length_replicate])

/-- Claim C7: convolving `[1, 0, ..., 0]` with any length-512 polynomial
reproduces that polynomial's canonical values in entries `[0, 512)` and
zeros in entries `[512, 1024)`. -/
theorem C7_identity_conv (s2 : List Felt) (hs : s2.length = 512) :
    (∀ i < 512, (mulModuloP unitPoly s2).getD i 0 = (s2.getD i 0).val) ∧
    (∀ i, 512 ≤ i → i < 1024 → (mulModuloP unitPoly s2).getD i 0 = 0) := by
  constructor
  · intro i hi
    rw [mulModuloP_getD _ _ i (by omega), exactConv_unit_left, if_pos hi]
    exact Nat.mod_eq_of_lt (lt_trans (s2.getD i 0).isLt (by decide))
  · intro i h5 h10
    rw [mulModuloP_getD _ _ i (by omega), exactConv_unit_left, if_neg (by omega),
      Nat.zero_mod]

/-- Claim C7, witness at the all-zero polynomial. -/
theorem C7_witness :
    (∀ i < 512, (mulModuloP unitPoly zeroPoly).getD i 0 = (zeroPoly.getD i 0).val) ∧
    (∀ i, 512 ≤ i → i < 1024 → (mulModuloP unitPoly zeroPoly).getD i 0 = 0) :=
  C7_identity_conv zeroPoly (by rw [zeroPoly, List.length_replicate])

/-- Claim C8: the advice-stack generation is deterministic — equal inputs
produce identical output sequences (the embedding is a pure function of
its inputs; the source performs no randomness or I/O on this path). -/
theorem C8_deterministic (hash : List Felt → List Felt) (h1 s1 h2 s2 : List Felt)
    (hh : h1 = h2) (hs : s1 = s2) :
    generateAdviceStackFromSignature hash h1 s1 =
      generateAdviceStackFromSignature hash h2 s2 := by
  rw [hh, hs]

/-- Claim C8, witness at concrete equal inputs. -/
theorem C8_witness :
    generateAdviceStackFromSignature trivialDigest unitPoly unitPoly =
      generateAdviceStackFromSignature trivialDigest unitPoly unitPoly :=
  C8_deterministic trivialDigest unitPoly unitPoly unitPoly unitPoly rfl rfl

/-- Claim C9: every entry of the advice tape is a canonical field
representative, strictly below `p = 2^64 - 2^32 + 1`: the challenge
entries and coefficient entries are values of field elements, and each raw
convolution entry passes through `Felt::new`, i.e. is reduced modulo `p`,
before being emitted. -/
theorem C9_canonical (hash : List Felt → List Felt) (h s2 : List Felt)
    (hh : h.length = 512) (hs : s2.length = 512) :
    ∀ x ∈ generateAdviceStackFromSignature hash h s2, x < p := by
  intro x hx
  rw [tape_eq] at hx
  rcases List.mem_cons.mp hx with rfl | hx2
  · exact Fin.isLt _
  rcases List.mem_cons.mp hx2 with rfl | hx3
  · exact Fin.isLt _
  rcases List.mem_map.mp hx3 with ⟨y, _, rfl⟩
  exact y.isLt

/-- Claim C9, witness: the first tape entry at concrete inputs is a
canonical representative. -/
theorem C9_witness :
    (generateAdviceStackFromSignature trivialDigest zeroPoly unitPoly).getD 0 0 < p := by
  have hlen :
      0 < (generateAdviceStackFromSignature trivialDigest zeroPoly unitPoly).length := by
    rw [tape_length trivialDigest zeroPoly unitPoly
      (by rw [zeroPoly, List.length_replicate])
      (by rw [unitPoly, List.length_cons, List.length_replicate])]
    omega
  exact C9_canonical trivialDigest zeroPoly unitPoly
    (by rw [zeroPoly, List.length_replicate])
    (by rw [unitPoly, List.length_cons, List.length_replicate])
    _ (by rw [List.getD_eq_getElem _ _ hlen]; exact List.getElem_mem hlen)

/-- Claim C10: with `amount = 0`, `mint_from_faucet_for_account` returns
`Ok(())` immediately and performs no client calls at all: no mint
transaction is built or submitted, no note is consumed, no state sync. -/
theorem C10_zero_amount {ε : Type} (env : MintEnv ε) (txScript : Option Unit)
    (amount : Nat) (h : amount = 0) :
    mintFromFaucetForAccount env amount txScript = (MintOutcome.ok, []) := by
  subst h
  rfl

/-- Claim C10, witness at a concrete environment. -/
theorem C10_witness :
    mintFromFaucetForAccount
      (MintEnv.mk true (Except.ok ()) (Except.ok ()) true (Except.ok ())
        (Except.ok ()) (Except.ok ()) (Except.ok ()) : MintEnv Unit)
      0 none = (MintOutcome.ok, []) :=
  C10_zero_amount
    (MintEnv.mk true (Except.ok ()) (Except.ok ()) true (Except.ok ())
      (Except.ok ()) (Except.ok ()) (Except.ok ()))
    none 0 rfl

end MidenClientTools
